import Mathlib

/-!
Verification of the bifrost HTTP edge layer (transports/bifrost-http/handlers):
the plugin transport-interceptor middleware, middleware chaining, the admin
authentication gate, the static UI server and the login flow.

Go strings are modelled as Lean `String` values; the Go standard-library
functions the code calls (strings.TrimSpace, strings.HasPrefix, strings.ToLower,
strings.EqualFold, strings.Contains, url.QueryEscape, path.Clean, filepath.Base,
filepath.Ext, encoding/json) are given executable models below.  Byte-level
operations (Go slicing, UTF-8) coincide with the char-level models on ASCII
data; the one place the code slices a string by bytes is noted at `goDropN`.
-/

/-! ## Models of the Go standard-library string functions -/

/-- Model of Go unicode.IsSpace: the White_Space code points. -/
def goIsSpace (c : Char) : Bool :=
  c == ' ' || c == '\t' || c == '\n' || c.toNat == 11 || c.toNat == 12 ||
  c == '\r' || c.toNat == 0x85 || c.toNat == 0xA0 || c.toNat == 0x1680 ||
  (0x2000 ≤ c.toNat && c.toNat ≤ 0x200A) || c.toNat == 0x2028 ||
  c.toNat == 0x2029 || c.toNat == 0x202F || c.toNat == 0x205F ||
  c.toNat == 0x3000

/-- Model of Go strings.TrimSpace: drop leading and trailing whitespace. -/
def goTrimSpace (s : String) : String :=
  String.mk (((s.data.dropWhile goIsSpace).reverse.dropWhile goIsSpace).reverse)

/-- ASCII lower-casing of one char (model of unicode.ToLower on ASCII;
non-ASCII chars are kept, which agrees with Go on all data this code meets). -/
def asciiLowerChar (c : Char) : Char :=
  if 'A' ≤ c ∧ c ≤ 'Z' then Char.ofNat (c.toNat + 32) else c

/-- Model of Go strings.ToLower (ASCII fold). -/
def asciiToLower (s : String) : String :=
  String.mk (s.data.map asciiLowerChar)

/-- Model of Go strings.EqualFold (ASCII fold). -/
def goEqualFold (a b : String) : Bool :=
  asciiToLower a == asciiToLower b

/-- Model of Go strings.HasPrefix. -/
def goStartsWith (s pre : String) : Bool :=
  pre.data.isPrefixOf s.data

/-- Model of Go strings.HasSuffix. -/
def goEndsWith (s suf : String) : Bool :=
  suf.data.isSuffixOf s.data

/-- Model of Go strings.TrimSuffix. -/
def goTrimSuffix (s suf : String) : String :=
  if goEndsWith s suf then String.mk (s.data.take (s.data.length - suf.data.length)) else s

/-- Substring occurrence test on char lists. -/
def containsL (needle : List Char) : List Char → Bool
  | [] => needle.isEmpty
  | c :: t => needle.isPrefixOf (c :: t) || containsL needle t

/-- Model of Go strings.Contains. -/
def goContains (s sub : String) : Bool :=
  containsL sub.data s.data

/-- Model of the Go slice expression s[n:].  Go slices by bytes; this drops
chars, which coincides with byte slicing whenever the first n bytes of s are
ASCII (true everywhere the code under verification slices). -/
def goDropN (s : String) (n : Nat) : String :=
  String.mk (s.data.drop n)

/-- Upper-case hex digit for a value below 16 (url escaping). -/
def hexDigitU (n : Nat) : Char :=
  if n < 10 then Char.ofNat (48 + n) else Char.ofNat (55 + n)

/-- UTF-8 encoding of one char, as byte values. -/
def utf8Bytes (c : Char) : List Nat :=
  let n := c.toNat
  if n < 0x80 then [n]
  else if n < 0x800 then [0xC0 + n / 0x40, 0x80 + n % 0x40]
  else if n < 0x10000 then [0xE0 + n / 0x1000, 0x80 + n / 0x40 % 0x40, 0x80 + n % 0x40]
  else [0xF0 + n / 0x40000, 0x80 + n / 0x1000 % 0x40, 0x80 + n / 0x40 % 0x40, 0x80 + n % 0x40]

/-- Chars Go url.QueryEscape leaves unescaped. -/
def isQueryUnreserved (c : Char) : Bool :=
  c.isAlpha || c.isDigit || c == '-' || c == '_' || c == '.' || c == '~'

/-- Escape one char the way Go url.QueryEscape does. -/
def queryEscapeChar (c : Char) : List Char :=
  if isQueryUnreserved c then [c]
  else if c == ' ' then ['+']
  else (utf8Bytes c).foldr (fun b acc => '%' :: hexDigitU (b / 16) :: hexDigitU (b % 16) :: acc) []

/-- Model of Go net/url QueryEscape. -/
def queryEscape (s : String) : String :=
  String.mk (s.data.foldr (fun c acc => queryEscapeChar c ++ acc) [])

/-! ## Models of Go path functions -/

/-- Split a string on the slash character. -/
def splitSlashAux (acc : List Char) : List Char → List String
  | [] => [String.mk acc.reverse]
  | c :: t => if c == '/' then String.mk acc.reverse :: splitSlashAux [] t
              else splitSlashAux (c :: acc) t

/-- All slash-separated fields of a string (empty fields kept). -/
def splitSlash (s : String) : List String :=
  splitSlashAux [] s.data

/-- Join path elements with slashes. -/
def joinSlash : List String → String
  | [] => ""
  | [x] => x
  | x :: xs => x ++ "/" ++ joinSlash xs

/-- The element-processing loop of Go path.Clean: skip empty and dot elements,
let a dotdot element pop the previous element (kept dotdots and the root are
never popped; a dotdot at the root of a rooted path is dropped). -/
def cleanSegs (rooted : Bool) : List String → List String → List String
  | acc, [] => acc.reverse
  | acc, seg :: rest =>
    if seg == "" || seg == "." then cleanSegs rooted acc rest
    else if seg == ".." then
      match acc with
      | [] => if rooted then cleanSegs rooted [] rest else cleanSegs rooted [".."] rest
      | top :: acc2 =>
        if top == ".." then cleanSegs rooted (".." :: top :: acc2) rest
        else cleanSegs rooted acc2 rest
    else cleanSegs rooted (seg :: acc) rest

/-- Model of Go path.Clean. -/
def pathCleanGo (p : String) : String :=
  if p == "" then "."
  else
    let rooted := goStartsWith p "/"
    let outSegs := cleanSegs rooted [] (splitSlash p)
    let joined := joinSlash outSegs
    if rooted then (if joined == "" then "/" else "/" ++ joined)
    else (if joined == "" then "." else joined)

/-- Model of Go filepath.Base on slash-separated paths. -/
def pathBase (p : String) : String :=
  if p == "" then "."
  else
    let r := p.data.reverse.dropWhile (fun c => c == '/')
    if r.isEmpty then "/"
    else String.mk ((r.takeWhile (fun c => !(c == '/'))).reverse)

/-- Model of Go filepath.Ext: the suffix of the last path element starting at
its final dot, or empty when the last element has no dot. -/
def pathExt (p : String) : String :=
  let seg := p.data.reverse.takeWhile (fun c => !(c == '/'))
  if seg.any (fun c => c == '.') then
    String.mk ('.' :: (seg.takeWhile (fun c => !(c == '.'))).reverse)
  else ""

/-! ## A JSON value model (encoding/json on map[string]any)

`Jval` models the dynamic values produced by json.Unmarshal into
map[string]any.  Numbers keep their source lexeme: Go parses them to float64
and re-serializes; no claim under verification depends on float round-tripping,
so the lexeme model is sufficient and keeps everything executable. -/

inductive Jval where
  | jnull : Jval
  | jbool (b : Bool) : Jval
  | jnum (lexeme : String) : Jval
  | jstr (s : String) : Jval
  | jarr (elems : List Jval) : Jval
  | jobj (fields : List (String × Jval)) : Jval

/-- A Go map[string]any body, as an association list with map semantics
(keys unique; insertion overwrites). -/
abbrev Jobj := List (String × Jval)

/-- Map-semantics insert for JSON objects (overwrite existing key in place,
else append), mirroring assignment into a Go map. -/
def objSet (m : Jobj) (k : String) (v : Jval) : Jobj :=
  match m with
  | [] => [(k, v)]
  | (k0, v0) :: rest => if k0 == k then (k, v) :: rest else (k0, v0) :: objSet rest k v

/-- Byte-wise key order (UTF-8 order equals code-point order). -/
def charListLt : List Char → List Char → Bool
  | [], [] => false
  | [], _ :: _ => true
  | _ :: _, [] => false
  | a :: as, b :: bs =>
    if a.toNat < b.toNat then true
    else if b.toNat < a.toNat then false
    else charListLt as bs

/-- Key comparison used by json.Marshal when serializing a Go map
(ascending byte order of the keys). -/
def keyLt (a b : String) : Bool :=
  charListLt a.data b.data

/-- Insert one field into a key-sorted field list. -/
def insertField (f : String × Jval) : List (String × Jval) → List (String × Jval)
  | [] => [f]
  | g :: gs => if keyLt f.1 g.1 then f :: g :: gs else g :: insertField f gs

/-- Sort fields by key, as json.Marshal does for Go maps. -/
def sortFields : List (String × Jval) → List (String × Jval)
  | [] => []
  | f :: fs => insertField f (sortFields fs)

/-- Escape one char of a JSON string the way json.Marshal does
(HTML escaping enabled, the default for json.Marshal). -/
def escJsonChar (c : Char) : List Char :=
  if c == '"' then ['\\', '"']
  else if c == '\\' then ['\\', '\\']
  else if c == '\n' then ['\\', 'n']
  else if c == '\r' then ['\\', 'r']
  else if c == '\t' then ['\\', 't']
  else if c.toNat < 0x20 then
    ['\\', 'u', '0', '0', hexDigitU (c.toNat / 16), hexDigitU (c.toNat % 16)]
  else if c == '<' then "\\u003c".data
  else if c == '>' then "\\u003e".data
  else if c == '&' then "\\u0026".data
  else if c.toNat == 0x2028 then "\\u2028".data
  else if c.toNat == 0x2029 then "\\u2029".data
  else [c]

/-- Escape every char of a JSON string body. -/
def escChars : List Char → List Char
  | [] => []
  | c :: rest => escJsonChar c ++ escChars rest

/-- A quoted, escaped JSON string literal. -/
def quoteL (s : String) : List Char :=
  '"' :: escChars s.data ++ ['"']

/-- Comma-join serialized pieces. -/
def joinCommaL : List (List Char) → List Char
  | [] => []
  | [x] => x
  | x :: xs => x ++ ',' :: joinCommaL xs

mutual

/-- Nesting depth of a JSON value (fuel bound for the serializer). -/
def jvalDepth : Jval → Nat
  | .jarr es => jlistDepth es + 1
  | .jobj fs => jfieldsDepth fs + 1
  | _ => 1

/-- Maximal depth over a list of JSON values. -/
def jlistDepth : List Jval → Nat
  | [] => 0
  | v :: vs => max (jvalDepth v) (jlistDepth vs)

/-- Maximal depth over a field list. -/
def jfieldsDepth : List (String × Jval) → Nat
  | [] => 0
  | (_, v) :: fs => max (jvalDepth v) (jfieldsDepth fs)

end

/-- Fuel-indexed serializer for JSON values (model of json.Marshal; object
fields are emitted in ascending key order like Go map marshalling).  The fuel
is always at least the value depth when called through marshalObj. -/
def szValL : Nat → Jval → List Char
  | _, .jnull => "null".data
  | _, .jbool true => "true".data
  | _, .jbool false => "false".data
  | _, .jnum s => s.data
  | _, .jstr s => quoteL s
  | 0, _ => []
  | fuel + 1, .jarr es => '[' :: joinCommaL (es.map (szValL fuel)) ++ [']']
  | fuel + 1, .jobj fs =>
    '{' :: joinCommaL ((sortFields fs).map (fun f => quoteL f.1 ++ ':' :: szValL fuel f.2)) ++ ['}']

/-- Model of json.Marshal applied to a map[string]any request body. -/
def marshalObj (fs : Jobj) : String :=
  String.mk (szValL (jfieldsDepth fs + 1) (.jobj fs))

/-! ## A JSON parser (model of json.Unmarshal into map[string]any) -/

/-- JSON whitespace (RFC 8259, as accepted by encoding/json). -/
def isJsonWs (c : Char) : Bool :=
  c == ' ' || c == '\t' || c == '\n' || c == '\r'

/-- Skip JSON whitespace. -/
def skipWs (cs : List Char) : List Char :=
  cs.dropWhile isJsonWs

/-- Hex digit value, or none. -/
def hexVal (c : Char) : Option Nat :=
  if '0' ≤ c ∧ c ≤ '9' then some (c.toNat - 48)
  else if 'a' ≤ c ∧ c ≤ 'f' then some (c.toNat - 87)
  else if 'A' ≤ c ∧ c ≤ 'F' then some (c.toNat - 55)
  else none

/-- Parse the body of a JSON string literal (after the opening quote) up to the
closing quote.  Escapes follow RFC 8259; a lone \\uXXXX escape is decoded to
the code point (surrogate-pair recombination is not modelled — no claim under
verification depends on it). -/
def parseStrChars (acc : List Char) : List Char → Option (String × List Char)
  | [] => none
  | c :: rest =>
    if c == '"' then some (String.mk acc.reverse, rest)
    else if c == '\\' then
      match rest with
      | [] => none
      | e :: rest2 =>
        if e == '"' then parseStrChars ('"' :: acc) rest2
        else if e == '\\' then parseStrChars ('\\' :: acc) rest2
        else if e == '/' then parseStrChars ('/' :: acc) rest2
        else if e == 'b' then parseStrChars (Char.ofNat 8 :: acc) rest2
        else if e == 'f' then parseStrChars (Char.ofNat 12 :: acc) rest2
        else if e == 'n' then parseStrChars ('\n' :: acc) rest2
        else if e == 'r' then parseStrChars ('\r' :: acc) rest2
        else if e == 't' then parseStrChars ('\t' :: acc) rest2
        else if e == 'u' then
          match rest2 with
          | h1 :: h2 :: h3 :: h4 :: rest3 =>
            match hexVal h1, hexVal h2, hexVal h3, hexVal h4 with
            | some a, some b, some c2, some d =>
              parseStrChars (Char.ofNat (a * 4096 + b * 256 + c2 * 16 + d) :: acc) rest3
            | _, _, _, _ => none
          | _ => none
        else none
    else if c.toNat < 0x20 then none
    else parseStrChars (c :: acc) rest

/-- Take a run of decimal digits. -/
def takeDigits (cs : List Char) : List Char × List Char :=
  (cs.takeWhile Char.isDigit, cs.dropWhile Char.isDigit)

/-- Scan a JSON number lexeme per the strict encoding/json grammar
-?(0|[1-9][0-9]*)(.[0-9]+)?([eE][+-]?[0-9]+)?. -/
def scanNumber (cs : List Char) : Option (List Char × List Char) := do
  let (sign, cs1) := match cs with
    | '-' :: t => (['-'], t)
    | _ => ([], cs)
  let (intPart, cs2) ← match cs1 with
    | '0' :: t =>
      match t with
      | d :: _ => if d.isDigit then none else some (['0'], t)
      | [] => some (['0'], t)
    | d :: _ =>
      if d.isDigit then
        let (ds, r) := takeDigits cs1
        some (ds, r)
      else none
    | [] => none
  let (fracPart, cs3) ← match cs2 with
    | '.' :: t =>
      let (ds, r) := takeDigits t
      if ds.isEmpty then none else some ('.' :: ds, r)
    | _ => some ([], cs2)
  let (expPart, cs4) ← match cs3 with
    | e :: t =>
      if e == 'e' || e == 'E' then
        let (sgn, t2) := match t with
          | '+' :: t2 => (['+'], t2)
          | '-' :: t2 => (['-'], t2)
          | _ => ([], t)
        let (ds, r) := takeDigits t2
        if ds.isEmpty then none else some (e :: sgn ++ ds, r)
      else some ([], cs3)
    | [] => some ([], cs3)
  some (sign ++ intPart ++ fracPart ++ expPart, cs4)

mutual

/-- Parse one JSON value (fuel-indexed recursive descent). -/
def parseVal : Nat → List Char → Option (Jval × List Char)
  | 0, _ => none
  | fuel + 1, cs =>
    match skipWs cs with
    | 'n' :: 'u' :: 'l' :: 'l' :: r => some (.jnull, r)
    | 't' :: 'r' :: 'u' :: 'e' :: r => some (.jbool true, r)
    | 'f' :: 'a' :: 'l' :: 's' :: 'e' :: r => some (.jbool false, r)
    | '"' :: r =>
      match parseStrChars [] r with
      | some (s, r2) => some (.jstr s, r2)
      | none => none
    | '[' :: r =>
      (match skipWs r with
       | ']' :: r2 => some (.jarr [], r2)
       | _ =>
         match parseArrElems fuel r with
         | some (vs, r2) => some (.jarr vs, r2)
         | none => none)
    | '{' :: r =>
      (match skipWs r with
       | '}' :: r2 => some (.jobj [], r2)
       | _ =>
         match parseObjMembers fuel r with
         | some (fs, r2) => some (.jobj (fs.foldl (fun m kv => objSet m kv.1 kv.2) []), r2)
         | none => none)
    | other =>
      match scanNumber other with
      | some (lexeme, r) => some (.jnum (String.mk lexeme), r)
      | none => none

/-- Parse one or more array elements then the closing bracket. -/
def parseArrElems : Nat → List Char → Option (List Jval × List Char)
  | 0, _ => none
  | fuel + 1, cs => do
    let (v, r) ← parseVal fuel cs
    match skipWs r with
    | ',' :: r2 =>
      let (vs, r3) ← parseArrElems fuel r2
      some (v :: vs, r3)
    | ']' :: r2 => some ([v], r2)
    | _ => none

/-- Parse one or more object members then the closing brace. -/
def parseObjMembers : Nat → List Char → Option (List (String × Jval) × List Char)
  | 0, _ => none
  | fuel + 1, cs =>
    match skipWs cs with
    | '"' :: r => do
      let (k, r2) ← parseStrChars [] r
      match skipWs r2 with
      | ':' :: r3 => do
        let (v, r4) ← parseVal fuel r3
        match skipWs r4 with
        | ',' :: r5 =>
          let (fs, r6) ← parseObjMembers fuel r5
          some ((k, v) :: fs, r6)
        | '}' :: r5 => some ([(k, v)], r5)
        | _ => none
      | _ => none
    | _ => none

end

/-- Model of json.Unmarshal(bodyBytes, &map[string]any):  the whole input must
be one JSON object followed only by whitespace, else an error (none). -/
def jsonDecodeObj (s : String) : Option Jobj :=
  match parseVal (s.data.length + 1) s.data with
  | some (.jobj fs, rest) => if (skipWs rest).isEmpty then some fs else none
  | some (_, _) => none
  | none => none

/-! ## The plugin transport-interceptor middleware
(src handlers, TransportInterceptorMiddleware) -/

/-- An incoming fasthttp request as the middleware observes it: the request
URI, the ordered header pairs, and the raw body bytes (as a string). -/
structure HttpRequest where
  uri : String
  headers : List (String × String)
  body : String
deriving DecidableEq

/-- A loaded plugin: a name (GetName) and the TransportInterceptor capability
`(requestURI, headers, body) -> (headers, body) or error`.  The outer Option is
the Go error (none = err != nil); inside, each component is nil-able exactly as
the Go return values are (none = a nil map). -/
structure Plugin where
  name : String
  transportIntercept : String → List (String × String) → Jobj →
    Option (Option (List (String × String)) × Option Jobj)

/-- A Go map[string]string of headers, as an insertion-ordered association
list with exact string keys and overwrite-on-insert. -/
abbrev Headers := List (String × String)

/-- Assignment headers[k] = v into a Go map (overwrite in place or append). -/
def mapSet (m : Headers) (k v : String) : Headers :=
  match m with
  | [] => [(k, v)]
  | (k0, v0) :: rest => if k0 == k then (k, v) :: rest else (k0, v0) :: mapSet rest k v

/-- Go map lookup headers[k]. -/
def mapLookup (m : Headers) (k : String) : Option String :=
  match m with
  | [] => none
  | (k0, v0) :: rest => if k0 == k then some v0 else mapLookup rest k

/-- The header map built from the request headers by the middleware
(iteration in request order, last value per name wins), line for line the
ctx.Request.Header.All() fold. -/
def buildHeaderMap (hs : List (String × String)) : Headers :=
  hs.foldl (fun m kv => mapSet m kv.1 kv.2) []

/-- fasthttp Request.Header.Set: header names compare case-insensitively
(fasthttp canonicalizes names); the first matching entry is replaced, else the
pair is appended. -/
def hdrSet (hs : List (String × String)) (k v : String) : List (String × String) :=
  match hs with
  | [] => [(k, v)]
  | (k0, v0) :: rest =>
    if goEqualFold k0 k then (k, v) :: rest else (k0, v0) :: hdrSet rest k v

/-- fasthttp Request.Header.Del: remove every entry whose name matches
case-insensitively. -/
def hdrDel (hs : List (String × String)) (k : String) : List (String × String) :=
  hs.filter (fun kv => !(goEqualFold kv.1 k))

/-- Modelled from the spec: the exported name constant of the governance plugin
(governance.PluginName); the plugin package itself is outside the given
sources.  Only its identity as a fixed name matters to the middleware. -/
def governancePluginName : String := "governance"

/-- The governance-presence scan of the middleware. -/
def hasGovernance (ps : List Plugin) : Bool :=
  ps.any (fun p => p.name == governancePluginName)

/-- One iteration of the plugin loop: call TransportInterceptor; on error keep
the working pair; on success replace each component that came back non-nil. -/
def pluginStep (uri : String) (hb : Headers × Jobj) (p : Plugin) : Headers × Jobj :=
  match p.transportIntercept uri hb.1 hb.2 with
  | none => hb
  | some (mh, mb) => (mh.getD hb.1, mb.getD hb.2)

/-- The whole plugin loop in registration order. -/
def runPlugins (uri : String) (ps : List Plugin) (h : Headers) (b : Jobj) : Headers × Jobj :=
  ps.foldl (pluginStep uri) (h, b)

/-- Body deserialization before the loop: an empty body stays the fresh empty
map; otherwise json.Unmarshal must succeed (none = log and pass through). -/
def parseRequestBody (body : String) : Option Jobj :=
  if body == "" then some [] else jsonDecodeObj body

/-- Header reconciliation after the loop: delete every originally present
name that is absent from the final map, then set every name/value of the
final map. -/
def reconcile (orig : List (String × String)) (origNames : List String)
    (finalMap : Headers) : List (String × String) :=
  let afterDel := origNames.foldl
    (fun hs name => if (mapLookup finalMap name).isNone then hdrDel hs name else hs) orig
  finalMap.foldl (fun hs kv => hdrSet hs kv.1 kv.2) afterDel

/-- Outcome of one middleware: either the next handler runs on the (possibly
rewritten) request, or an error response is sent and the chain stops. -/
inductive MWResult where
  | next (req : HttpRequest) : MWResult
  | sendError (status : Nat) (msg : String) : MWResult
deriving DecidableEq

/-- TransportInterceptorMiddleware, step for step: skip when no plugins or no
governance plugin; build the header map and name list; unmarshal the body
(pass through unchanged on a parse error); run every plugin with failure
isolation; marshal the final body back (total in this model, as every `Jobj`
is serializable, so the 500 marshal-failure branch is unreachable); reconcile
headers; hand the rewritten request to next. -/
def transportInterceptor (ps : List Plugin) (req : HttpRequest) : MWResult :=
  if ps.length = 0 then .next req
  else if hasGovernance ps = false then .next req
  else
    match parseRequestBody req.body with
    | none => .next req
    | some requestBody =>
      let headerMap := buildHeaderMap req.headers
      let originalHeaderNames := req.headers.map Prod.fst
      let fin := runPlugins req.uri ps headerMap requestBody
      .next { req with
        headers := reconcile req.headers originalHeaderNames fin.1,
        body := marshalObj fin.2 }

/-! ## ChainMiddlewares (src handlers, ChainMiddlewares)

Handlers are modelled as trace transformers: a handler receives the list of
events recorded so far and returns it extended with its own effects.  This
makes execution order and short-circuiting observable. -/

/-- A fasthttp.RequestHandler over the trace model. -/
def Handler : Type := List String → List String

/-- A lib.BifrostHTTPMiddleware. -/
def Middleware : Type := Handler → Handler

/-- ChainMiddlewares, loop for loop: with no middlewares return the handler;
otherwise wrap from right to left (the last middleware wraps the handler
first) so the first middleware runs outermost. -/
def chainMiddlewares (handler : Handler) (middlewares : List Middleware) : Handler :=
  if middlewares.length = 0 then handler
  else middlewares.reverse.foldl (fun chained m => m chained) handler

/-- The terminal handler of the trace model: records the event "H". -/
def termH : Handler := fun events => events ++ ["H"]

/-- An instrumented middleware: records its name, then either invokes the next
stage (proceed = true) or short-circuits by returning without calling it. -/
def mkMiddleware (name : String) (proceed : Bool) : Middleware :=
  fun next events => if proceed then next (events ++ [name]) else events ++ [name]

/-! ## AdminAuthMiddleware (src handlers, AdminAuthMiddleware / isPublicPath) -/

/-- The configuration fields AdminAuthMiddleware reads. -/
structure GateConfig where
  adminSecret : String
  adminCookieName : String

/-- A request as the admin gate observes it: method, path, the parsed header
pairs, and the parsed cookie pairs of the Cookie header. -/
structure AdminRequest where
  method : String
  path : String
  headers : List (String × String)
  cookies : List (String × String)

/-- fasthttp Request.Header.Peek: first header whose (canonicalized) name
matches, or the empty string. -/
def peekHeader (hs : List (String × String)) (key : String) : String :=
  match hs.find? (fun kv => goEqualFold kv.1 key) with
  | some kv => kv.2
  | none => ""

/-- fasthttp Request.Header.Cookie: value of the cookie with exactly this
name, or the empty string. -/
def cookieValue (cs : List (String × String)) (name : String) : String :=
  match cs.find? (fun kv => kv.1 == name) with
  | some kv => kv.2
  | none => ""

/-- isPublicPath, clause for clause. -/
def isPublicPath (method path : String) : Bool :=
  (path == "/metrics" && method == "GET")
  || (goStartsWith path "/v1/" && method == "POST")
  || ((goStartsWith path "/openai/" || goStartsWith path "/openai/v1/") && method == "POST")
  || ((path == "/openai/models" || path == "/openai/v1/models") && method == "GET")
  || goStartsWith path "/admin/login"
  || (path == "/api/version" && method == "GET")

/-- The bearer-credential check of AdminAuthMiddleware, exactly as coded:
non-empty Authorization header, case-insensitive "bearer " prefix of the
TRIMMED header, but the token is sliced from the UNTRIMMED header at byte 7
(auth[len("Bearer "):]) and then trimmed and compared to AdminSecret. -/
def bearerOk (cfg : GateConfig) (req : AdminRequest) : Bool :=
  let auth := peekHeader req.headers "Authorization"
  !(auth == "") && goStartsWith (asciiToLower (goTrimSpace auth)) "bearer "
    && (goTrimSpace (goDropN auth 7) == cfg.adminSecret)

/-- The cookie-credential check of AdminAuthMiddleware: a non-empty cookie
value exactly equal to AdminSecret. -/
def cookieOk (cfg : GateConfig) (req : AdminRequest) : Bool :=
  let c := cookieValue req.cookies cfg.adminCookieName
  !(c == "") && (c == cfg.adminSecret)

/-- The content-negotiation predicate wantsJSON of AdminAuthMiddleware. -/
def wantsJsonCode (req : AdminRequest) : Bool :=
  (goContains (asciiToLower (peekHeader req.headers "Accept")) "application/json"
    || goEqualFold (peekHeader req.headers "X-Requested-With") "XMLHttpRequest")
  || goStartsWith req.path "/api/"

/-- Outcome of the admin gate.  `next` means the next stage was invoked (the
gate never mutates the request); `unauthorized` is the structured SendError
response; `redirect` is the 302 with the given Location. -/
inductive GateResult where
  | next : GateResult
  | unauthorized (status : Nat) (msg : String) : GateResult
  | redirect (location : String) : GateResult
deriving DecidableEq

/-- AdminAuthMiddleware, branch for branch. -/
def adminAuth (cfg : GateConfig) (req : AdminRequest) : GateResult :=
  if goTrimSpace cfg.adminSecret = "" then .next
  else if isPublicPath req.method req.path then .next
  else if bearerOk cfg req then .next
  else if cookieOk cfg req then .next
  else if (wantsJsonCode req || goStartsWith req.path "/v1/") || goStartsWith req.path "/api/" then
    .unauthorized 401 "admin authentication required"
  else .redirect ("/admin/login?next=" ++ queryEscape req.path)

/-- The claim-side negotiation predicate: Accept contains application/json
(case-insensitive), or X-Requested-With equals XMLHttpRequest
(case-insensitive), or the path starts with /api/, or it starts with /v1/. -/
def wantsJsonOrApi (req : AdminRequest) : Bool :=
  ((goContains (asciiToLower (peekHeader req.headers "Accept")) "application/json"
    || goEqualFold (peekHeader req.headers "X-Requested-With") "XMLHttpRequest")
  || goStartsWith req.path "/api/")
  || goStartsWith req.path "/v1/"

/-- The claim/spec-side bearer test: trim the header, check the
case-insensitive "bearer " prefix, and compare the trimmed token AFTER THAT
PREFIX OF THE TRIMMED VALUE with the secret. -/
def specBearerMatch (secret auth : String) : Bool :=
  goStartsWith (asciiToLower (goTrimSpace auth)) "bearer "
    && (goTrimSpace (goDropN (goTrimSpace auth) 7) == secret)

/-! ## The static UI server (ui.go, serveDashboard) -/

/-- The response serveDashboard produces: status, body bytes, and the
Content-Type / Cache-Control headers when set. -/
structure UIResponse where
  status : Nat
  body : String
  contentType : Option String
  cacheControl : Option String
deriving DecidableEq

/-- Modelled from the Go mime.TypeByExtension builtin table (the entries
relevant to the asset bundle; unknown extensions give ""). -/
def mimeByExtension (ext : String) : String :=
  if ext == ".html" then "text/html; charset=utf-8"
  else if ext == ".htm" then "text/html; charset=utf-8"
  else if ext == ".css" then "text/css; charset=utf-8"
  else if ext == ".js" then "text/javascript; charset=utf-8"
  else if ext == ".json" then "application/json"
  else if ext == ".txt" then "text/plain; charset=utf-8"
  else if ext == ".svg" then "image/svg+xml"
  else if ext == ".png" then "image/png"
  else if ext == ".jpg" then "image/jpeg"
  else if ext == ".gif" then "image/gif"
  else ""

/-- Path resolution of serveDashboard: path.Clean, the .txt RSC-payload
remapping, then the bundle-root prefixing ("/" to ui/index.html, otherwise
"ui" + path). -/
def resolveUIPath (requestPath : String) : String :=
  let cleanPath := pathCleanGo requestPath
  let cleanPath :=
    if goEndsWith cleanPath ".txt" then
      let basePath := goTrimSuffix cleanPath ".txt"
      let basePath := if basePath == "/" || basePath == "" then "/index" else basePath
      basePath ++ "/index.txt"
    else cleanPath
  if cleanPath == "/" then "ui/index.html" else "ui" ++ cleanPath

/-- Asset classification of serveDashboard: the final path element of the
resolved path contains a dot. -/
def pathHasExt (p : String) : Bool :=
  goContains (pathBase p) "."

/-- The 200 branch of serveDashboard: content type from the resolved
extension (generic binary default) and the cache policy (immutable for
ui/_next/static/, no-cache for .html, one hour otherwise). -/
def serveFile (cleanPath data : String) : UIResponse :=
  let ext := pathExt cleanPath
  let mt := mimeByExtension ext
  let ct := if mt == "" then "application/octet-stream" else mt
  let cache :=
    if goStartsWith cleanPath "ui/_next/static/" then "public, max-age=31536000, immutable"
    else if ext == ".html" then "no-cache"
    else "public, max-age=3600"
  ⟨200, data, some ct, some cache⟩

/-- serveDashboard over an asset bundle (the embedded FS as a path-to-bytes
map): exact lookup; 404 for missing assets; for missing routes try
path/index.html, then the bundle root ui/index.html, then 404. -/
def serveDashboard (bundle : String → Option String) (requestPath : String) : UIResponse :=
  let cleanPath := resolveUIPath requestPath
  let hasExtension := pathHasExt cleanPath
  match bundle cleanPath with
  | some data => serveFile cleanPath data
  | none =>
    if hasExtension then ⟨404, "404 - Static asset not found: " ++ requestPath, none, none⟩
    else
      match bundle (cleanPath ++ "/index.html") with
      | some data => serveFile (cleanPath ++ "/index.html") data
      | none =>
        match bundle "ui/index.html" with
        | some data => serveFile "ui/index.html" data
        | none => ⟨404, "404 - File not found", none, none⟩

/-! ## The login flow (ui.go, loginSubmit) -/

/-- The configuration fields loginSubmit reads (h.config may be nil, hence the
Option at the use site). -/
structure LoginConfig where
  adminSecret : String
  adminCookieName : String

/-- The cookie loginSubmit sets: fasthttp.Cookie with key, value, path,
HttpOnly; maxAge and expire keep their zero values (session cookie). -/
structure LoginCookie where
  name : String
  value : String
  path : String
  httpOnly : Bool
  maxAge : Int
  hasExpire : Bool
deriving DecidableEq

/-- The 401 body loginSubmit re-renders on a wrong password. -/
def invalidPasswordHtml : String :=
  "<html><body><p>Invalid password</p><a href=\"/admin/login\">Try again</a></body></html>"

/-- Outcome of loginSubmit: a structured SendError, the inline 401 form, or
success with the cookie set and a 302 to the given Location. -/
inductive LoginResult where
  | err (status : Nat) (msg : String) : LoginResult
  | unauthorizedHtml (body : String) : LoginResult
  | success (cookie : LoginCookie) (location : String) : LoginResult
deriving DecidableEq

/-- loginSubmit, branch for branch: 503 when config is nil or the secret
trims to empty; 400 on an empty password; the inline 401 form on a mismatch;
otherwise set the admin cookie (default name bf_admin) and redirect to next,
defaulting to "/" when next is empty or contains "://". -/
def loginSubmit (cfg : Option LoginConfig) (password nextTarget : String) : LoginResult :=
  match cfg with
  | none => .err 503 "admin auth not configured"
  | some c =>
    if goTrimSpace c.adminSecret = "" then .err 503 "admin auth not configured"
    else if password = "" then .err 400 "password is required"
    else if password ≠ c.adminSecret then .unauthorizedHtml invalidPasswordHtml
    else
      let cookieName := if c.adminCookieName == "" then "bf_admin" else c.adminCookieName
      let nextLoc := if (nextTarget == "") || goContains nextTarget "://" then "/" else nextTarget
      .success ⟨cookieName, c.adminSecret, "/", true, 0, false⟩ nextLoc

/-! ## Concrete fixtures used by witnesses and counterexamples -/

/-- A governance plugin that succeeds and returns the working pair. -/
def govIdPlugin : Plugin :=
  ⟨"governance", fun _ h b => some (some h, some b)⟩

/-- A governance plugin that succeeds and returns nil for both results. -/
def govNilPlugin : Plugin :=
  ⟨"governance", fun _ _ _ => some (none, none)⟩

/-- A governance plugin that always returns an error. -/
def govFailPlugin : Plugin :=
  ⟨"governance", fun _ _ _ => none⟩

/-- A governance plugin that succeeds and replaces the body. -/
def govBodyPlugin : Plugin :=
  ⟨"governance", fun _ _ _ => some (none, some [("x", Jval.jnum "1")])⟩

/-! ## Helper lemmas -/

/-- A string all of whose chars are whitespace trims to the empty string. -/
theorem goTrimSpace_eq_empty {s : String} (h : s.data.all goIsSpace = true) :
    goTrimSpace s = "" := by
  unfold goTrimSpace
  have h1 : s.data.dropWhile goIsSpace = [] := by
    rw [List.dropWhile_eq_nil_iff]
    intro x hx
    exact List.all_eq_true.mp h x hx
  rw [h1]
  rfl

/-- A plugin list containing the governance plugin is non-empty. -/
theorem hasGovernance_ne_nil {ps : List Plugin} (h : hasGovernance ps = true) :
    ps ≠ [] := by
  intro hnil
  subst hnil
  simp [hasGovernance] at h

/-- Inserting a plugin in the middle preserves governance presence. -/
theorem hasGovernance_mid {ps1 ps2 : List Plugin} (p : Plugin)
    (h : hasGovernance (ps1 ++ ps2) = true) :
    hasGovernance (ps1 ++ p :: ps2) = true := by
  simp only [hasGovernance, List.any_append, List.any_cons, Bool.or_eq_true] at h ⊢
  tauto

/-- The interceptor middleware when the pipeline actually runs: non-empty
plugin list, governance present, body deserialized to b0. -/
theorem transportInterceptor_run (ps : List Plugin) (req : HttpRequest) (b0 : Jobj)
    (hne : ps ≠ []) (hgov : hasGovernance ps = true)
    (hparse : parseRequestBody req.body = some b0) :
    transportInterceptor ps req = .next { req with
      headers := reconcile req.headers (req.headers.map Prod.fst)
        (runPlugins req.uri ps (buildHeaderMap req.headers) b0).1,
      body := marshalObj (runPlugins req.uri ps (buildHeaderMap req.headers) b0).2 } := by
  unfold transportInterceptor
  rw [if_neg (by simpa [List.length_eq_zero] using hne), if_neg (by simp [hgov]), hparse]

/-- The interceptor middleware passes the request through untouched when the
body fails to deserialize. -/
theorem transportInterceptor_skip (ps : List Plugin) (req : HttpRequest)
    (hparse : parseRequestBody req.body = none) :
    transportInterceptor ps req = .next req := by
  unfold transportInterceptor
  by_cases h1 : ps.length = 0
  · rw [if_pos h1]
  · rw [if_neg h1]
    by_cases h2 : hasGovernance ps = false
    · rw [if_pos h2]
    · rw [if_neg h2, hparse]

/-- chainMiddlewares equals the right fold: m1 applied to (m2 applied to
(... mn applied to H)). -/
theorem chain_foldr (H : Handler) (ms : List Middleware) :
    chainMiddlewares H ms = ms.foldr (fun m acc => m acc) H := by
  cases ms with
  | nil => rfl
  | cons m t => simp [chainMiddlewares, List.foldl_reverse]

/-- When every instrumented middleware proceeds, the chained handler records
every middleware name in list order and then the terminal handler. -/
theorem chain_run_all (specs : List (String × Bool)) (c : List String)
    (h : ∀ s ∈ specs, s.2 = true) :
    chainMiddlewares termH (specs.map (fun s => mkMiddleware s.1 s.2)) c
      = c ++ specs.map Prod.fst ++ ["H"] := by
  induction specs generalizing c with
  | nil => simp [chainMiddlewares, termH]
  | cons s t ih =>
    have hs : s.2 = true := h s (List.mem_cons_self s t)
    rw [chain_foldr]
    simp only [List.map_cons, List.foldr_cons]
    rw [← chain_foldr]
    have happ : mkMiddleware s.1 s.2
        (chainMiddlewares termH (t.map (fun s => mkMiddleware s.1 s.2))) c
        = chainMiddlewares termH (t.map (fun s => mkMiddleware s.1 s.2)) (c ++ [s.1]) := by
      simp [mkMiddleware, hs]
    rw [happ, ih (c ++ [s.1]) (fun x hx => h x (List.mem_cons_of_mem s hx))]
    simp

/-- When one instrumented middleware declines to proceed, execution stops
there: only the earlier names and its own are recorded; later middlewares and
the terminal handler never run. -/
theorem chain_run_stop (pre : List (String × Bool)) (nm : String)
    (post : List (String × Bool)) (c : List String)
    (h : ∀ s ∈ pre, s.2 = true) :
    chainMiddlewares termH ((pre ++ (nm, false) :: post).map (fun s => mkMiddleware s.1 s.2)) c
      = c ++ pre.map Prod.fst ++ [nm] := by
  induction pre generalizing c with
  | nil =>
    rw [chain_foldr]
    simp only [List.nil_append, List.map_cons, List.foldr_cons]
    simp [mkMiddleware]
  | cons s t ih =>
    have hs : s.2 = true := h s (List.mem_cons_self s t)
    rw [chain_foldr]
    simp only [List.cons_append, List.map_cons, List.foldr_cons]
    rw [← chain_foldr]
    have happ : mkMiddleware s.1 s.2
        (chainMiddlewares termH ((t ++ (nm, false) :: post).map (fun s => mkMiddleware s.1 s.2))) c
        = chainMiddlewares termH ((t ++ (nm, false) :: post).map (fun s => mkMiddleware s.1 s.2))
            (c ++ [s.1]) := by
      simp [mkMiddleware, hs]
    rw [happ, ih (c ++ [s.1]) (fun x hx => h x (List.mem_cons_of_mem s hx))]
    simp

/-! ## Claim theorems -/

/-- Claim C8: for every incoming request, if Config.AdminSecret is the empty
string then AdminAuthMiddleware invokes the next stage with the request
unchanged — no credential check is performed and no 401 or redirect is ever
produced.  (The gate never mutates the request, so GateResult.next is exactly
the unchanged pass-through.) -/
theorem c8_empty_secret_noop (cfg : GateConfig) (req : AdminRequest)
    (h : cfg.adminSecret = "") : adminAuth cfg req = GateResult.next := by
  unfold adminAuth
  rw [if_pos (by rw [h]; rfl)]

theorem c8_empty_secret_noop_witness :
    adminAuth ⟨"", "bf_admin"⟩ ⟨"GET", "/settings", [], []⟩ = GateResult.next :=
  c8_empty_secret_noop ⟨"", "bf_admin"⟩ ⟨"GET", "/settings", [], []⟩ rfl

/-- Claim C9: an AdminSecret consisting only of whitespace characters is
treated as unconfigured even though it is a non-empty string: every request
passes the gate without a credential check, and every login POST is answered
with 503. -/
theorem c9_whitespace_secret (secret : String) (cfg : GateConfig)
    (req : AdminRequest) (lcfg : LoginConfig) (password nextTarget : String)
    (hne : secret ≠ "") (hws : secret.data.all goIsSpace = true)
    (h1 : cfg.adminSecret = secret) (h2 : lcfg.adminSecret = secret) :
    adminAuth cfg req = GateResult.next
    ∧ loginSubmit (some lcfg) password nextTarget
        = LoginResult.err 503 "admin auth not configured" := by
  have ht : goTrimSpace secret = "" := goTrimSpace_eq_empty hws
  constructor
  · unfold adminAuth
    rw [if_pos (by rw [h1, ht])]
  · have hl : goTrimSpace lcfg.adminSecret = "" := by rw [h2, ht]
    simp [loginSubmit, hl]

theorem c9_whitespace_secret_witness :
    adminAuth ⟨" ", "bf_admin"⟩ ⟨"GET", "/models", [], []⟩ = GateResult.next
    ∧ loginSubmit (some ⟨" ", "bf_admin"⟩) "pw" "/"
        = LoginResult.err 503 "admin auth not configured" :=
  c9_whitespace_secret " " ⟨" ", "bf_admin"⟩ ⟨"GET", "/models", [], []⟩
    ⟨" ", "bf_admin"⟩ "pw" "/" (by decide) (by decide) rfl rfl

/-- Claim C2 (code bug): the claim (and the spec and the doc
comment) wants a trimmed, case-insensitive bearer token compared with
AdminSecret; the code slices the token from the UNTRIMMED header value at
byte 7.  At Authorization = "  Bearer s3cr3t" (two leading spaces) with
AdminSecret = "s3cr3t", the claim-side bearer predicate holds, yet the gate
rejects the request and answers with the login redirect instead of invoking
the next stage. -/
theorem c2_bearer_slice_bug :
    specBearerMatch "s3cr3t" "  Bearer s3cr3t" = true
    ∧ adminAuth ⟨"s3cr3t", "bf_admin"⟩
        ⟨"GET", "/settings", [("Authorization", "  Bearer s3cr3t")], []⟩
        ≠ GateResult.next
    ∧ adminAuth ⟨"s3cr3t", "bf_admin"⟩
        ⟨"GET", "/settings", [("Authorization", "  Bearer s3cr3t")], []⟩
        = GateResult.redirect "/admin/login?next=%2Fsettings" := by
  refine ⟨by decide, by decide, by decide⟩

/-- Claim C4: for every non-public request with (effectively) non-empty
AdminSecret where neither the bearer check nor the cookie check passes, the
response is the structured 401 error exactly when Accept contains
application/json (case-insensitive), or X-Requested-With equals
XMLHttpRequest (case-insensitive), or the path starts with /api/ or /v1/;
otherwise it is the 302 redirect to /admin/login?next= plus the url-encoded
path.  (Non-empty is the effective test of the code, goTrimSpace ≠ "": an
all-whitespace secret disables the gate entirely, see C9.) -/
theorem c4_content_negotiation (cfg : GateConfig) (req : AdminRequest)
    (hsec : goTrimSpace cfg.adminSecret ≠ "")
    (hpub : isPublicPath req.method req.path = false)
    (hbearer : bearerOk cfg req = false)
    (hcookie : cookieOk cfg req = false) :
    adminAuth cfg req =
      if wantsJsonOrApi req then GateResult.unauthorized 401 "admin authentication required"
      else GateResult.redirect ("/admin/login?next=" ++ queryEscape req.path) := by
  unfold adminAuth
  rw [if_neg hsec, if_neg (by simp [hpub]), if_neg (by simp [hbearer]),
      if_neg (by simp [hcookie])]
  cases hA : goContains (asciiToLower (peekHeader req.headers "Accept")) "application/json" <;>
  cases hB : goEqualFold (peekHeader req.headers "X-Requested-With") "XMLHttpRequest" <;>
  cases hC : goStartsWith req.path "/api/" <;>
  cases hD : goStartsWith req.path "/v1/" <;>
  simp [wantsJsonCode, wantsJsonOrApi, hA, hB, hC, hD]

theorem c4_content_negotiation_witness :
    adminAuth ⟨"s3cr3t", "bf_admin"⟩ ⟨"GET", "/settings", [], []⟩
      = GateResult.redirect "/admin/login?next=%2Fsettings" :=
  (c4_content_negotiation ⟨"s3cr3t", "bf_admin"⟩ ⟨"GET", "/settings", [], []⟩
    (by decide) (by decide) (by decide) (by decide)).trans (by decide)

/-- Claim C5: ChainMiddlewares(H, m1..mn) equals m1 applied to (m2 applied to
(... mn applied to H)) — the right fold — and returns H itself for the empty
list; at run time (trace model) m1 executes first, a middleware that does not
invoke its next stage stops everything after it including H, and when no
middleware short-circuits, H observes the side effects of all middlewares in
list order. -/
theorem c5_chain_semantics :
    (∀ H : Handler, chainMiddlewares H [] = H)
    ∧ (∀ (H : Handler) (ms : List Middleware),
        chainMiddlewares H ms = ms.foldr (fun m acc => m acc) H)
    ∧ (∀ (specs : List (String × Bool)) (c : List String),
        (∀ s ∈ specs, s.2 = true) →
        chainMiddlewares termH (specs.map (fun s => mkMiddleware s.1 s.2)) c
          = c ++ specs.map Prod.fst ++ ["H"])
    ∧ (∀ (pre : List (String × Bool)) (nm : String) (post : List (String × Bool))
        (c : List String),
        (∀ s ∈ pre, s.2 = true) →
        chainMiddlewares termH ((pre ++ (nm, false) :: post).map (fun s => mkMiddleware s.1 s.2)) c
          = c ++ pre.map Prod.fst ++ [nm]) :=
  ⟨fun _ => rfl, chain_foldr, chain_run_all, chain_run_stop⟩

theorem c5_chain_semantics_witness :
    chainMiddlewares termH
      [mkMiddleware "m1" true, mkMiddleware "m2" false, mkMiddleware "m3" true] []
      = ["m1", "m2"] :=
  (c5_chain_semantics.2.2.2 [("m1", true)] "m2" [("m3", true)] [] (by decide)).trans rfl

/-- Claim C6: for every request path, the static UI server resolves content in
this order over the asset bundle: the exact resolved path is served when
present; a missing path whose final segment contains a dot is a 404 with no
fallback; a missing extensionless route is served from path/index.html when
present, else from the bundle root ui/index.html when present, else 404.  In
particular an unknown extensionless path with no matching index but an
existing root index gets 200 with the root index bytes. -/
theorem c6_ui_lookup_order (bundle : String → Option String) (p : String) :
    match bundle (resolveUIPath p) with
    | some d => (serveDashboard bundle p).status = 200 ∧ (serveDashboard bundle p).body = d
    | none =>
      if pathHasExt (resolveUIPath p) then (serveDashboard bundle p).status = 404
      else
        match bundle (resolveUIPath p ++ "/index.html") with
        | some d => (serveDashboard bundle p).status = 200 ∧ (serveDashboard bundle p).body = d
        | none =>
          match bundle "ui/index.html" with
          | some d => (serveDashboard bundle p).status = 200 ∧ (serveDashboard bundle p).body = d
          | none => (serveDashboard bundle p).status = 404 := by
  cases h1 : bundle (resolveUIPath p) with
  | some d => simp [serveDashboard, h1, serveFile]
  | none =>
    cases hx : pathHasExt (resolveUIPath p) with
    | true => simp [serveDashboard, h1, hx]
    | false =>
      cases h2 : bundle (resolveUIPath p ++ "/index.html") with
      | some d => simp [serveDashboard, h1, h2, hx, serveFile]
      | none =>
        cases h3 : bundle "ui/index.html" with
        | some d => simp [serveDashboard, h1, h2, h3, hx, serveFile]
        | none => simp [serveDashboard, h1, h2, h3, hx]

/-- Claim C7: for every login POST: 503 when AdminSecret is unconfigured
(nil config or a secret that trims to empty); else 400 on an empty password;
else the inline 401 form on a password different from AdminSecret; else a
cookie named AdminCookieName (default bf_admin) with value AdminSecret,
Path /, HTTP-only, session-scoped, and a 302 to the submitted next target,
with "/" substituted whenever next is empty or contains "://". -/
theorem c7_login_submit (cfg : Option LoginConfig) (password nextTarget : String) :
    ((cfg = none ∨ ∃ c, cfg = some c ∧ goTrimSpace c.adminSecret = "") →
      loginSubmit cfg password nextTarget = LoginResult.err 503 "admin auth not configured")
    ∧ (∀ c, cfg = some c → goTrimSpace c.adminSecret ≠ "" → password = "" →
      loginSubmit cfg password nextTarget = LoginResult.err 400 "password is required")
    ∧ (∀ c, cfg = some c → goTrimSpace c.adminSecret ≠ "" → password ≠ "" →
        password ≠ c.adminSecret →
      loginSubmit cfg password nextTarget = LoginResult.unauthorizedHtml invalidPasswordHtml)
    ∧ (∀ c, cfg = some c → goTrimSpace c.adminSecret ≠ "" → password ≠ "" →
        password = c.adminSecret →
      loginSubmit cfg password nextTarget =
        LoginResult.success
          ⟨if c.adminCookieName == "" then "bf_admin" else c.adminCookieName,
           c.adminSecret, "/", true, 0, false⟩
          (if (nextTarget == "") || goContains nextTarget "://" then "/" else nextTarget)) := by
  refine ⟨?_, ?_, ?_, ?_⟩
  · rintro (h | ⟨c, rfl, hc⟩)
    · subst h; rfl
    · simp [loginSubmit, hc]
  · rintro c rfl hs hp
    simp [loginSubmit, hs, hp]
  · rintro c rfl hs hp hq
    simp [loginSubmit, hs, hp, hq]
  · rintro c rfl hs hp hq
    subst hq
    simp [loginSubmit, hs, hp]

theorem c7_login_submit_witness :
    loginSubmit (some ⟨"s3cr3t", ""⟩) "s3cr3t" "/dash"
      = LoginResult.success ⟨"bf_admin", "s3cr3t", "/", true, 0, false⟩ "/dash" :=
  ((c7_login_submit (some ⟨"s3cr3t", ""⟩) "s3cr3t" "/dash").2.2.2 ⟨"s3cr3t", ""⟩ rfl
    (by decide) (by decide) rfl).trans (by decide)

/-- Claim C1 (amended): for every plugin invocation that returns success,
the working header mapping and body fed to the next plugin — and, after the
last plugin, reconciled onto the outgoing request — are exactly the mapping
and body returned by that plugin (full replacement, not a merge, including
empty non-nil mappings) WHENEVER the returned component is non-nil; a nil
returned header mapping or nil returned body keeps the previous working
value (if modifiedHeaders != nil / if modifiedBody != nil guards). -/
theorem c1_success_replacement (uri : String) (p : Plugin) (ps : List Plugin)
    (h : Headers) (b : Jobj) (rh : Option Headers) (rb : Option Jobj)
    (hcall : p.transportIntercept uri h b = some (rh, rb)) :
    runPlugins uri (p :: ps) h b = runPlugins uri ps (rh.getD h) (rb.getD b)
    ∧ ∀ (plugins : List Plugin) (req : HttpRequest) (b0 : Jobj),
        plugins ≠ [] → hasGovernance plugins = true →
        parseRequestBody req.body = some b0 →
        transportInterceptor plugins req = MWResult.next { req with
          headers := reconcile req.headers (req.headers.map Prod.fst)
            (runPlugins req.uri plugins (buildHeaderMap req.headers) b0).1,
          body := marshalObj (runPlugins req.uri plugins (buildHeaderMap req.headers) b0).2 } := by
  constructor
  · simp [runPlugins, pluginStep, hcall]
  · intro plugins req b0 hne hgov hp
    exact transportInterceptor_run plugins req b0 hne hgov hp

theorem c1_success_replacement_witness :
    runPlugins "/u" [govNilPlugin] [("X-Old", "1")] [] = ([("X-Old", "1")], ([] : Jobj)) :=
  ((c1_success_replacement "/u" govNilPlugin [] [("X-Old", "1")] [] none none rfl).1).trans rfl

/-- Counterexample to C1 as stated: a plugin invocation that SUCCEEDS and
returns nil for both components does not replace the working state with the
returned (nil/empty) values — the non-empty prior header mapping survives, so
the replacement is not performed "for every returned value, including nil". -/
theorem c1_nil_keeps_working_state :
    govNilPlugin.transportIntercept "/u" [("X-Old", "1")] [] = some (none, none)
    ∧ pluginStep "/u" ([("X-Old", "1")], []) govNilPlugin = ([("X-Old", "1")], [])
    ∧ ([("X-Old", "1")] : Headers) ≠ [] :=
  ⟨rfl, rfl, by decide⟩

/-- Claim C3 (amended): when a plugin errors at its position in the loop, the
pipeline keeps the pre-plugin headers/body, continues with the rest, and the
whole middleware result equals the result with the failing plugin removed —
PROVIDED the remaining plugins still contain the governance plugin (otherwise
the reduced pipeline skips interception entirely, see the counterexample).
Moreover the interceptor middleware never produces an error response: every
run ends by invoking the next stage. -/
theorem c3_failure_isolation (ps1 : List Plugin) (p : Plugin) (ps2 : List Plugin)
    (req : HttpRequest)
    (hgov : hasGovernance (ps1 ++ ps2) = true)
    (herr : ∀ b0 : Jobj, parseRequestBody req.body = some b0 →
      p.transportIntercept req.uri
        (runPlugins req.uri ps1 (buildHeaderMap req.headers) b0).1
        (runPlugins req.uri ps1 (buildHeaderMap req.headers) b0).2 = none) :
    transportInterceptor (ps1 ++ p :: ps2) req = transportInterceptor (ps1 ++ ps2) req
    ∧ ∀ (qs : List Plugin) (r : HttpRequest), ∃ r2,
        transportInterceptor qs r = MWResult.next r2 := by
  constructor
  · have hgov2 : hasGovernance (ps1 ++ p :: ps2) = true := hasGovernance_mid p hgov
    cases hp : parseRequestBody req.body with
    | none => rw [transportInterceptor_skip _ _ hp, transportInterceptor_skip _ _ hp]
    | some b0 =>
      rw [transportInterceptor_run _ _ b0 (hasGovernance_ne_nil hgov2) hgov2 hp,
          transportInterceptor_run _ _ b0 (hasGovernance_ne_nil hgov) hgov hp]
      have hrp : runPlugins req.uri (ps1 ++ p :: ps2) (buildHeaderMap req.headers) b0
          = runPlugins req.uri (ps1 ++ ps2) (buildHeaderMap req.headers) b0 := by
        have hskip := herr b0 hp
        unfold runPlugins at hskip ⊢
        rw [List.foldl_append, List.foldl_append, List.foldl_cons]
        have hstep : pluginStep req.uri
            (List.foldl (pluginStep req.uri) (buildHeaderMap req.headers, b0) ps1) p
            = List.foldl (pluginStep req.uri) (buildHeaderMap req.headers, b0) ps1 := by
          simp [pluginStep, hskip]
        rw [hstep]
      rw [hrp]
  · intro qs r
    cases hp : parseRequestBody r.body with
    | none => exact ⟨r, transportInterceptor_skip qs r hp⟩
    | some b0 =>
      by_cases h1 : qs.length = 0
      · exact ⟨r, by unfold transportInterceptor; rw [if_pos h1]⟩
      · by_cases h2 : hasGovernance qs = false
        · exact ⟨r, by unfold transportInterceptor; rw [if_neg h1, if_pos h2]⟩
        · exact ⟨_, by unfold transportInterceptor; rw [if_neg h1, if_neg h2, hp]⟩

theorem c3_failure_isolation_witness :
    transportInterceptor [govIdPlugin, govFailPlugin] ⟨"/u", [], ""⟩
      = transportInterceptor [govIdPlugin] ⟨"/u", [], ""⟩ :=
  (c3_failure_isolation [govIdPlugin] govFailPlugin [] ⟨"/u", [], ""⟩ (by decide)
    (fun _ _ => rfl)).1

/-- Counterexample to C3 as stated: when the failing plugin is the only
governance plugin, removing it disables interception altogether, so the
forwarded bodies differ (the empty body is rewritten to "\x7b\x7d" by the
full pipeline but forwarded raw by the reduced one). -/
theorem c3_sole_governance_failure_cex :
    govFailPlugin.transportIntercept "/u" [] [] = none
    ∧ transportInterceptor [govFailPlugin] ⟨"/u", [], ""⟩
        ≠ transportInterceptor [] ⟨"/u", [], ""⟩ :=
  ⟨rfl, by decide⟩

/-- Claim C10 (amended): when the plugin snapshot is non-empty and contains
the governance plugin, a request with an empty (zero-byte) body still goes
through the interceptor pipeline, and its outgoing body is the JSON
serialization of the final pipeline body computed from the empty JSON
object — which is "\x7b\x7d" whenever no plugin successfully replaces the
body — before the next stage runs; the serialized body is never the empty
string, so an empty body is never forwarded unchanged. -/
theorem c10_empty_body_rewrite (ps : List Plugin) (req : HttpRequest)
    (hne : ps ≠ []) (hgov : hasGovernance ps = true) (hbody : req.body = "") :
    transportInterceptor ps req = MWResult.next { req with
      headers := reconcile req.headers (req.headers.map Prod.fst)
        (runPlugins req.uri ps (buildHeaderMap req.headers) []).1,
      body := marshalObj (runPlugins req.uri ps (buildHeaderMap req.headers) []).2 }
    ∧ marshalObj [] = "\x7b\x7d"
    ∧ ∀ fs : Jobj, marshalObj fs ≠ "" := by
  refine ⟨?_, rfl, ?_⟩
  · exact transportInterceptor_run ps req [] hne hgov (by rw [hbody]; rfl)
  · intro fs hcontra
    have hdata := congrArg String.data hcontra
    simp [marshalObj, szValL] at hdata

theorem c10_empty_body_rewrite_witness :
    transportInterceptor [govIdPlugin] ⟨"/u", [("X-Old", "1")], ""⟩
      = MWResult.next ⟨"/u", [("X-Old", "1")], "\x7b\x7d"⟩ :=
  ((c10_empty_body_rewrite [govIdPlugin] ⟨"/u", [("X-Old", "1")], ""⟩
    (List.cons_ne_nil _ _) (by decide) rfl).1).trans (by decide)

/-- Counterexample to C10 as stated: a governance plugin that successfully
replaces the body makes the outgoing body the serialization of that replacement,
not "\x7b\x7d", even though the incoming body was empty. -/
theorem c10_plugin_modified_body_cex :
    hasGovernance [govBodyPlugin] = true
    ∧ (⟨"/u", [], ""⟩ : HttpRequest).body = ""
    ∧ transportInterceptor [govBodyPlugin] ⟨"/u", [], ""⟩
        = MWResult.next ⟨"/u", [], "\x7b\"x\":1\x7d"⟩
    ∧ ("\x7b\"x\":1\x7d" : String) ≠ "\x7b\x7d" :=
  ⟨rfl, rfl, by decide, by decide⟩
